import Mathlib

/-!
# worker: refreshing the price table from two upstream feeds

A shallow embedding of `worker/worker.go` (package `worker` of
yagotome/challenge-bravo) and the properties of its two feed adapters and of
one refresh cycle of `Run`.

Layout: float64 values, the collaborators of the package (standard library,
network, `config`, `currency`), the program state, the functions of
`worker.go` in source order, then lemmas and the theorems.
-/

namespace Worker

/-! ## float64 -/

/-- An IEEE-754 binary64 value. `finite neg mant exp` is `(-1)^neg * mant * 2^exp`;
the values produced by the operations below are canonical: `mant < 2^53`,
`-1074 ≤ exp ≤ 971`, and `2^52 ≤ mant` unless `exp = -1074`. -/
inductive Float64
  | finite (neg : Bool) (mant : Nat) (exp : Int)
  | inf (neg : Bool)
  | nan
  deriving DecidableEq

/-- Helper of `log2`: halve at most `fuel` times. -/
def log2Fuel : Nat → Nat → Nat
  | 0, _ => 0
  | fuel + 1, n => if n < 2 then 0 else log2Fuel fuel (n / 2) + 1

/-- Floor of the binary logarithm (`0` at `0`). -/
def log2 (n : Nat) : Nat := log2Fuel n n

/-- Round the positive quotient `a / b` (with `0 < b`) to the nearest binary64
magnitude, ties to even; `none` when the rounded magnitude exceeds the largest
finite value (overflow). The result is `(mant, exp)` in canonical form. -/
def roundQuot (a b : Nat) : Option (Nat × Int) :=
  if a = 0 then some (0, -1074) else
  let e0 : Int := (log2 a : Int) - (log2 b : Int)
  -- floor (log2 (a / b)) is e0 or e0 - 1
  let fl : Int := if b * 2 ^ e0.toNat ≤ a * 2 ^ (-e0).toNat then e0 else e0 - 1
  -- exponent of the unit in the last place (subnormals share -1074)
  let q : Int := max fl (-1022) - 52
  let n := a * 2 ^ (-q).toNat
  let d := b * 2 ^ q.toNat
  let m := n / d
  let r := n % d
  let up := if 2 * r < d then m else if d < 2 * r then m + 1 else if m % 2 = 0 then m else m + 1
  let mq : Nat × Int := if up = 2 ^ 53 then (2 ^ 52, q + 1) else (up, q)
  if 971 < mq.2 then none else some mq

/-- The binary64 value nearest to `(-1)^neg * a / b`. -/
def Float64.ofFrac (neg : Bool) (a b : Nat) : Float64 :=
  match roundQuot a b with
  | some (m, q) => .finite neg m q
  | none => .inf neg

/-- The exact rational value of a finite binary64 (and `none` for infinities and NaN). -/
def Float64.toRat? : Float64 → Option ℚ
  | .finite neg m e => some ((if neg then -1 else 1) * (m : ℚ) * (2 : ℚ) ^ e)
  | _ => none

/-- Go's `/` on float64: IEEE-754 division, round to nearest even. Division of a
nonzero finite value by zero is an infinity, not a run-time panic. -/
def Float64.div : Float64 → Float64 → Float64
  | .nan, _ => .nan
  | _, .nan => .nan
  | .inf _, .inf _ => .nan
  | .inf s, .finite t _ _ => .inf (xor s t)
  | .finite s _ _, .inf t => .finite (xor s t) 0 (-1074)
  | .finite s m e, .finite t n f =>
    if n = 0 then (if m = 0 then .nan else .inf (xor s t))
    else
      let lo := min e f
      match roundQuot (m * 2 ^ (e - lo).toNat) (n * 2 ^ (f - lo).toNat) with
      | some (r, q) => .finite (xor s t) r q
      | none => .inf (xor s t)

/-- The constant `1.0`. -/
def Float64.one : Float64 := .finite false (2 ^ 52) (-52)

/-- Positive zero. -/
def Float64.zero : Float64 := .finite false 0 (-1074)

/-! ## Collaborators -/

/-- A Go `error` value. -/
structure Error where
  msg : String
  deriving DecidableEq

deriving instance DecidableEq for Except

/-- The part of `*http.Response` that `request` uses: `Body` is what
`ioutil.ReadAll(response.Body)` returns. -/
structure Response where
  Body : Except Error String

/-- What `http.Get` answers during one call of an adapter. -/
abbrev Net := String → Except Error Response

/-- OpenExchangeRatesResponse: `Rates map[string]float64`, a lookup yields the
value and `ok`. -/
structure OpenExchangeRatesResponse where
  Rates : String → Option Float64

/-- CoinMarketCapResponse ... -/
structure CoinMarketCapResponse where
  PriceUsd : String
  deriving DecidableEq

/-- The standard-library functions the package calls: `json.Unmarshal` at the
two target types and `strconv.ParseFloat(_, 64)`. -/
structure Lib where
  unmarshalRates : String → Except Error OpenExchangeRatesResponse
  unmarshalCoins : String → Except Error (List CoinMarketCapResponse)
  ParseFloat : String → Except Error Float64

/-- Fields of `config.Config.QuotesAPIURL` read by the worker. -/
structure QuotesAPIURLConfig where
  OpenExchangeRates : String
  CoinMarketCap : String

/-- Fields of `config.Config.APIKeys` read by the worker. -/
structure APIKeysConfig where
  OpenExchangeRates : String

/-- Modelled from the spec: `config.Config` (package `config` is outside this
file); the four consumed values are the rates endpoint, the rates API key, the
crypto endpoint and the refresh interval in milliseconds. -/
structure Config where
  QuotesAPIURL : QuotesAPIURLConfig
  APIKeys : APIKeysConfig
  WorkerUpdateInterval : Int

/-- Modelled from the spec: `currency.Price`, the PriceStore: a mapping from
currency code to the latest known price. -/
structure Price where
  entries : String → Option Float64

/-- Modelled from the spec: `Price.Save(code, price)` unconditionally inserts or
overwrites the entry for `code`; it cannot fail. -/
def Price.Save (p : Price) (code : String) (price : Float64) : Price :=
  ⟨fun c => if c = code then some price else p.entries c⟩

/-- Modelled from the spec: `Price.Get(code)` returns the most recently saved
value for `code`, or not-found. -/
def Price.Get (p : Price) (code : String) : Option Float64 := p.entries code

/-- Modelled from the spec: the store at process start, with no entry. -/
def Price.empty : Price := ⟨fun _ => none⟩

/-- Modelled from the spec: `currency.InvertPrice(p)` computes `1.0 / p`. -/
def InvertPrice (price : Float64) : Float64 := Float64.div Float64.one price

/-! ## State -/

/-- A call with an effect outside the function that makes it. -/
inductive Event
  | println (line : String)
  | httpGet (url : String)
  | save (code : String) (price : Float64)
  | wgAdd (delta : Int)
  | go (e : Option Error)
  | wgWait
  | sleep (nanoseconds : Int)
  deriving DecidableEq

/-- The state the worker acts on: the store `*p`, the counter of the
package-level WaitGroup `wg`, the errors written by `log.Println`, and the
calls made so far by the goroutine that runs `Run` (oldest first). -/
structure State where
  p : Price
  wg : Int
  logged : List Error
  calls : List Event

/-- Record a call. -/
def State.emit (s : State) (ev : Event) : State :=
  { s with calls := s.calls ++ [ev] }

/-- The call `p.Save(code, price)`. -/
def State.Save (s : State) (code : String) (price : Float64) : State :=
  { s with p := s.p.Save code price, calls := s.calls ++ [.save code price] }

/-- The `Save` calls among a list of calls. -/
def savesOf : List Event → List (String × Float64)
  | [] => []
  | .save c v :: evs => (c, v) :: savesOf evs
  | _ :: evs => savesOf evs

/-- How a call ends: it returns, possibly with a value; it panics (an
unrecovered panic ends the process); or it blocks forever. -/
inductive Outcome (α : Type)
  | ret (val : α) (s : State)
  | panic (msg : String) (s : State)
  | blocked (s : State)

/-- Sequencing: the continuation runs only after a return. -/
def Outcome.bind {α β : Type} (o : Outcome α) (k : α → State → Outcome β) : Outcome β :=
  match o with
  | .ret a s => k a s
  | .panic msg s => .panic msg s
  | .blocked s => .blocked s

/-- The state in which a call ended. -/
def Outcome.state {α : Type} : Outcome α → State
  | .ret _ s => s
  | .panic _ s => s
  | .blocked s => s

/-! ## worker.go -/

def ethSymbol : String := "ETH"

def supportedCurrencies : List String := ["USD", "BRL", "EUR", "BTC", ethSymbol]

/-- Counter update of `wg.Add(delta)` and `wg.Done()` (which is `Add(-1)`): a
negative counter panics. -/
def wgAdd (delta : Int) (s : State) : Outcome Unit :=
  if s.wg + delta < 0 then .panic "sync: negative WaitGroup counter" s
  else .ret () { s with wg := s.wg + delta }

/-- treatError: log a non-nil error; the deferred `wg.Done()` runs last. -/
def treatError (e : Option Error) (s : State) : Outcome Unit :=
  let s := match e with
    | some err => { s with logged := s.logged ++ [err] }
    | none => s
  wgAdd (-1) s

/-- request: `http.Get(url)`, then read the whole body. -/
def request (net : Net) (url : String) (s : State) : Except Error String × State :=
  let s := s.emit (.httpGet url)
  match net url with
  | .error err => (.error err, s)
  | .ok response => (response.Body, s)

def getCoinOpenExchangeRates (lib : Lib) (net : Net) (url : String) (s : State) :
    Except Error OpenExchangeRatesResponse × State :=
  match request net url s with
  | (.error err, s) => (.error err, s)
  | (.ok buf, s) => (lib.unmarshalRates buf, s)

/-- The loop `for _, c := range supportedCurrencies` of updateFromOpenExchangeRates. -/
def rangeSupported (resp : OpenExchangeRatesResponse) : List String → State → State
  | [], s => s
  | c :: cs, s =>
    match resp.Rates c with
    | some price => rangeSupported resp cs (s.Save c price)
    | none => rangeSupported resp cs s

/-- The URL built by `fmt.Sprintf("%s?app_id=%s", ...)`. -/
def ratesURL (conf : Config) : String :=
  conf.QuotesAPIURL.OpenExchangeRates ++ "?app_id=" ++ conf.APIKeys.OpenExchangeRates

/-- updateFromOpenExchangeRates updates all prices from OpenExchangeRates. -/
def updateFromOpenExchangeRates (lib : Lib) (net : Net) (conf : Config) (s : State) :
    Outcome (Option Error) :=
  let url := ratesURL conf
  let s := s.emit (.println ("url " ++ url))
  match getCoinOpenExchangeRates lib net url s with
  | (.error err, s) => .ret (some err) s
  | (.ok resp, s) => .ret none (rangeSupported resp supportedCurrencies s)

def getCoinMarketCapResponse (lib : Lib) (net : Net) (url : String) (s : State) :
    Except Error (List CoinMarketCapResponse) × State :=
  match request net url s with
  | (.error err, s) => (.error err, s)
  | (.ok buf, s) => (lib.unmarshalCoins buf, s)

/-- updateFromCoinMarketCap updates Etherium price from CoinMarketCap. The index
expression `resp[0]` panics on an empty slice. -/
def updateFromCoinMarketCap (lib : Lib) (net : Net) (conf : Config) (s : State) :
    Outcome (Option Error) :=
  match getCoinMarketCapResponse lib net conf.QuotesAPIURL.CoinMarketCap s with
  | (.error err, s) => .ret (some err) s
  | (.ok resp, s) =>
    match resp[0]? with
    | none => .panic "runtime error: index out of range [0] with length 0" s
    | some r0 =>
      match lib.ParseFloat r0.PriceUsd with
      | .error err => .ret (some err) s
      | .ok price => .ret none (s.Save ethSymbol (InvertPrice price))

/-- Wrap-around of an int64 product. -/
def wrapInt64 (x : Int) : Int := (x + 2 ^ 63) % 2 ^ 64 - 2 ^ 63

/-- One iteration of the loop of Run. In `go treatError(f(p, &c))` the argument
`f(p, &c)` is evaluated by the goroutine executing the `go` statement; only
`treatError` itself runs in the new goroutine. `wg.Wait()` returns when the
counter is back to zero, that is after both `treatError` goroutines have run
(their order is not fixed by the program; they are run here in launch order). -/
def cycle (lib : Lib) (conf : Config) (netRates netCrypto : Net) (s : State) : Outcome Unit :=
  (wgAdd 2 (s.emit (.wgAdd 2))).bind fun _ s =>
  (updateFromOpenExchangeRates lib netRates conf s).bind fun e1 s =>
  let s := s.emit (.go e1)
  (updateFromCoinMarketCap lib netCrypto conf s).bind fun e2 s =>
  let s := s.emit (.go e2)
  (treatError e1 s).bind fun _ s =>
  (treatError e2 s).bind fun _ s =>
  if s.wg = 0 then
    .ret () ((s.emit .wgWait).emit (.sleep (wrapInt64 (1000000 * conf.WorkerUpdateInterval))))
  else .blocked s

/-- Run, cut after finitely many iterations: one iteration per element of the
list, which gives the network seen by the two adapters in that iteration. The
Go loop itself never returns. -/
def Run (lib : Lib) (conf : Config) : List (Net × Net) → State → Outcome Unit
  | [], s => .ret () s
  | (netRates, netCrypto) :: rest, s =>
    (cycle lib conf netRates netCrypto s).bind fun _ s => Run lib conf rest s

/-- The state at process start: empty store, counter zero, nothing logged. -/
def State.init : State := ⟨Price.empty, 0, [], []⟩

/-! ## A concrete standard library for evaluation -/

/-- Read a run of decimal digits: the number read so far, the count of digits
read, and the rest of the input. -/
def scanDigits : List Char → Nat → Nat → Nat × Nat × List Char
  | [], acc, n => (acc, n, [])
  | c :: cs, acc, n =>
    if c.isDigit then scanDigits cs (10 * acc + (c.toNat - 48)) (n + 1) else (acc, n, c :: cs)

/-- The exponent part of a decimal literal (after the mantissa): `none` when it
is malformed or followed by anything else. -/
def scanExponent : List Char → Option Int
  | [] => some 0
  | c :: cs =>
    if c = 'e' ∨ c = 'E' then
      let signed : Bool × List Char := match cs with
        | '-' :: t => (true, t)
        | '+' :: t => (false, t)
        | t => (false, t)
      match scanDigits signed.2 0 0 with
      | (x, n, []) => if n = 0 then none else some (if signed.1 then -(x : Int) else (x : Int))
      | _ => none
    else none

/-- `strconv.ParseFloat(str, 64)` on decimal input: an optional sign, then
`inf`, `infinity` or (unsigned) `nan` in any letter case, or decimal digits
with an optional point and an optional decimal exponent. A well-formed literal
yields the nearest float64, ties to even; a magnitude that rounds beyond the
largest finite value is a range error. Hexadecimal literals and digit-separating
underscores, which Go also accepts, are not covered: they are reported as
syntax errors here. -/
def parseDecimalFloat (str : String) : Except Error Float64 :=
  let signed : Bool × List Char := match str.data with
    | '-' :: t => (true, t)
    | '+' :: t => (false, t)
    | t => (false, t)
  let low := signed.2.map Char.toLower
  if low = "inf".data ∨ low = "infinity".data then .ok (.inf signed.1)
  else if str.data.map Char.toLower = "nan".data then .ok .nan
  else
    match scanDigits signed.2 0 0 with
    | (ip, ni, rest) =>
      let frac : Nat × Nat × List Char := match rest with
        | '.' :: t => scanDigits t ip 0
        | t => (ip, 0, t)
      if ni + frac.2.1 = 0 then .error ⟨"strconv.ParseFloat: invalid syntax"⟩
      else
        match scanExponent frac.2.2 with
        | none => .error ⟨"strconv.ParseFloat: invalid syntax"⟩
        | some ex =>
          let k : Int := ex - (frac.2.1 : Int)
          match roundQuot (frac.1 * 10 ^ k.toNat) (10 ^ (-k).toNat) with
          | some (m, q) => .ok (.finite signed.1 m q)
          | none => .error ⟨"strconv.ParseFloat: value out of range"⟩

/-- A decoder that knows the given bodies and rejects every other one. -/
def decodeKnown {α : Type} (known : List (String × α)) (body : String) : Except Error α :=
  match known.lookup body with
  | some v => .ok v
  | none => .error ⟨"json: cannot decode"⟩

/-- A standard library whose JSON decoder is given by two tables of bodies and
whose `ParseFloat` is `parseDecimalFloat`. -/
def tableLib (rates : List (String × OpenExchangeRatesResponse))
    (coins : List (String × List CoinMarketCapResponse)) : Lib :=
  ⟨decodeKnown rates, decodeKnown coins, parseDecimalFloat⟩

/-- A rates map given by its entries (the first entry of a code counts). -/
def ratesOf (entries : List (String × Float64)) : OpenExchangeRatesResponse :=
  ⟨fun c => entries.lookup c⟩

/-- A network that answers every request with the given body. -/
def netBody (body : String) : Net := fun _ => .ok ⟨.ok body⟩

/-- A network on which every request fails in transport. -/
def netDown : Net := fun _ => .error ⟨"dial tcp: connection refused"⟩

/-- A configuration used for evaluation. -/
def demoConfig : Config :=
  ⟨⟨"https://openexchangerates.example/latest.json", "https://coinmarketcap.example/ticker/ethereum/"⟩,
   ⟨"key"⟩, 60000⟩

/-- The value returned by a call, if it returned. -/
def Outcome.returned? {α : Type} : Outcome α → Option α
  | .ret a _ => some a
  | _ => none

/-- The message of the panic that ended a call, if it panicked. -/
def Outcome.panicked? {α : Type} : Outcome α → Option String
  | .panic msg _ => some msg
  | _ => none

/-- The `Save` calls that the loop over `codes` makes for the response `resp`. -/
def rateSaves (resp : OpenExchangeRatesResponse) (codes : List String) : List (String × Float64) :=
  codes.filterMap fun c => (resp.Rates c).map fun v => (c, v)

/-! ### Bodies and decoders used for evaluation -/

/-- The body of the rates scenario: USD 1.0, BRL 5.0 and the unsupported XYZ 9.9. -/
def scenarioBody : String := "\x7b\"rates\":\x7b\"USD\":1.0,\"BRL\":5.0,\"XYZ\":9.9\x7d\x7d"

/-- The decoded `scenarioBody`. -/
def scenarioRates : OpenExchangeRatesResponse :=
  ratesOf [("USD", .ofFrac false 1 1), ("BRL", .ofFrac false 5 1), ("XYZ", .ofFrac false 99 10)]

/-- A rates body with the single rate USD 1.0. -/
def usdBody : String := "\x7b\"rates\":\x7b\"USD\":1.0\x7d\x7d"

/-- The decoded `usdBody`. -/
def usdRates : OpenExchangeRatesResponse := ratesOf [("USD", .ofFrac false 1 1)]

/-- A rates body that quotes ETH next to USD. -/
def ethRatesBody : String := "\x7b\"rates\":\x7b\"USD\":1.0,\"ETH\":0.00025\x7d\x7d"

/-- The decoded `ethRatesBody`. -/
def ethRates : OpenExchangeRatesResponse :=
  ratesOf [("USD", .ofFrac false 1 1), ("ETH", .ofFrac false 25 100000)]

/-- A crypto body with one element of the given price. -/
def coinBody (price : String) : String := "[\x7b\"price_usd\":\"" ++ price ++ "\"\x7d]"

/-- The standard library used for evaluation: it decodes the bodies above, the
empty array and `null`, and parses decimal floats. -/
def demoLib : Lib :=
  tableLib
    [(scenarioBody, scenarioRates), (usdBody, usdRates), (ethRatesBody, ethRates)]
    [(coinBody "2000.0", [⟨"2000.0"⟩]), (coinBody "2500.00", [⟨"2500.00"⟩]),
     (coinBody "0", [⟨"0"⟩]), (coinBody "n/a", [⟨"n/a"⟩]), ("[]", []), ("null", [])]

/-! ## Lemmas -/

@[simp] theorem emit_p (s : State) (ev : Event) : (s.emit ev).p = s.p := rfl

@[simp] theorem emit_wg (s : State) (ev : Event) : (s.emit ev).wg = s.wg := rfl

@[simp] theorem emit_logged (s : State) (ev : Event) : (s.emit ev).logged = s.logged := rfl

@[simp] theorem emit_calls (s : State) (ev : Event) : (s.emit ev).calls = s.calls ++ [ev] := rfl

@[simp] theorem Save_p (s : State) (c : String) (v : Float64) : (s.Save c v).p = s.p.Save c v := rfl

@[simp] theorem Save_wg (s : State) (c : String) (v : Float64) : (s.Save c v).wg = s.wg := rfl

@[simp] theorem Save_logged (s : State) (c : String) (v : Float64) :
    (s.Save c v).logged = s.logged := rfl

@[simp] theorem Save_calls (s : State) (c : String) (v : Float64) :
    (s.Save c v).calls = s.calls ++ [.save c v] := rfl

theorem Get_Save (p : Price) (code c : String) (v : Float64) :
    (p.Save code v).Get c = if c = code then some v else p.Get c := rfl

theorem savesOf_append (xs ys : List Event) : savesOf (xs ++ ys) = savesOf xs ++ savesOf ys := by
  induction xs with
  | nil => rfl
  | cons x xs ih => cases x <;> simp [savesOf, ih]

/-- The value part of `request` does not depend on the state, and its only
call is the `http.Get`. -/
theorem request_eq (net : Net) (url : String) (s : State) :
    request net url s =
      ((match net url with
        | .error err => .error err
        | .ok response => response.Body), s.emit (.httpGet url)) := by
  unfold request
  cases net url <;> rfl

theorem getCoinOpenExchangeRates_ok (lib : Lib) (net : Net) (url : String) (s : State)
    (response : Response) (buf : String)
    (hget : net url = .ok response) (hread : response.Body = .ok buf) :
    getCoinOpenExchangeRates lib net url s = (lib.unmarshalRates buf, s.emit (.httpGet url)) := by
  simp [getCoinOpenExchangeRates, request_eq, hget, hread]

theorem getCoinOpenExchangeRates_transport (lib : Lib) (net : Net) (url : String) (s : State)
    (e : Error)
    (h : net url = .error e ∨ ∃ response, net url = .ok response ∧ response.Body = .error e) :
    getCoinOpenExchangeRates lib net url s = (.error e, s.emit (.httpGet url)) := by
  rcases h with h | ⟨response, h, hb⟩ <;> simp [getCoinOpenExchangeRates, request_eq, h, *]

theorem getCoinMarketCapResponse_ok (lib : Lib) (net : Net) (url : String) (s : State)
    (response : Response) (buf : String)
    (hget : net url = .ok response) (hread : response.Body = .ok buf) :
    getCoinMarketCapResponse lib net url s = (lib.unmarshalCoins buf, s.emit (.httpGet url)) := by
  simp [getCoinMarketCapResponse, request_eq, hget, hread]

theorem getCoinMarketCapResponse_transport (lib : Lib) (net : Net) (url : String) (s : State)
    (e : Error)
    (h : net url = .error e ∨ ∃ response, net url = .ok response ∧ response.Body = .error e) :
    getCoinMarketCapResponse lib net url s = (.error e, s.emit (.httpGet url)) := by
  rcases h with h | ⟨response, h, hb⟩ <;> simp [getCoinMarketCapResponse, request_eq, h, *]

/-- The loop touches neither the WaitGroup nor the log. -/
theorem rangeSupported_wg_logged (resp : OpenExchangeRatesResponse) (codes : List String)
    (s : State) :
    (rangeSupported resp codes s).wg = s.wg ∧ (rangeSupported resp codes s).logged = s.logged := by
  induction codes generalizing s with
  | nil => exact ⟨rfl, rfl⟩
  | cons c cs ih =>
    unfold rangeSupported
    cases resp.Rates c with
    | none => exact ih s
    | some v => simpa using ih (s.Save c v)

/-- The calls of the loop are its `Save` calls, in the order of `codes`. -/
theorem rangeSupported_calls (resp : OpenExchangeRatesResponse) (codes : List String)
    (s : State) :
    (rangeSupported resp codes s).calls =
      s.calls ++ (rateSaves resp codes).map fun cv => Event.save cv.1 cv.2 := by
  induction codes generalizing s with
  | nil => simp [rangeSupported, rateSaves]
  | cons c cs ih =>
    unfold rangeSupported
    cases h : resp.Rates c with
    | none => simpa [rateSaves, h] using ih s
    | some v => simpa [rateSaves, h] using ih (s.Save c v)

/-- The store after the loop: a code of `codes` that the response quotes holds
the quoted value, every other code holds what it held. -/
theorem rangeSupported_Get (resp : OpenExchangeRatesResponse) (codes : List String)
    (s : State) (c : String) :
    (rangeSupported resp codes s).p.Get c =
      if c ∈ codes then (match resp.Rates c with
        | some v => some v
        | none => s.p.Get c) else s.p.Get c := by
  induction codes generalizing s with
  | nil => simp [rangeSupported]
  | cons d ds ih =>
    unfold rangeSupported
    by_cases hcd : c = d
    · subst hcd
      cases h : resp.Rates c with
      | none => simp [ih, h]
      | some v => simp [ih, h, Get_Save]
    · cases h : resp.Rates d with
      | none => simp [ih, hcd]
      | some v => simp [ih, hcd, Get_Save]

/-- The store after the loop depends on the store before it only. -/
theorem rangeSupported_p_congr (resp : OpenExchangeRatesResponse) (codes : List String)
    (s t : State) (h : s.p = t.p) :
    (rangeSupported resp codes s).p = (rangeSupported resp codes t).p := by
  induction codes generalizing s t with
  | nil => exact h
  | cons c cs ih =>
    unfold rangeSupported
    cases resp.Rates c with
    | none => exact ih s t h
    | some v => exact ih _ _ (by simp [h])

theorem savesOf_map_save (l : List (String × Float64)) :
    savesOf (l.map fun cv => Event.save cv.1 cv.2) = l := by
  induction l with
  | nil => rfl
  | cons x xs ih => simp [savesOf, ih]

/-- The rates adapter after a successful fetch and decode: it returns nil, and
the state is the one left by the loop. -/
theorem updateFromOpenExchangeRates_ok (lib : Lib) (net : Net) (conf : Config) (s : State)
    (response : Response) (buf : String) (r : OpenExchangeRatesResponse)
    (hget : net (ratesURL conf) = .ok response) (hread : response.Body = .ok buf)
    (hdec : lib.unmarshalRates buf = .ok r) :
    updateFromOpenExchangeRates lib net conf s =
      .ret none (rangeSupported r supportedCurrencies
        ((s.emit (.println ("url " ++ ratesURL conf))).emit (.httpGet (ratesURL conf)))) := by
  simp [updateFromOpenExchangeRates, getCoinOpenExchangeRates_ok lib net _ _ response buf hget hread,
    hdec]

/-- The rates adapter after a failed fetch or decode: it returns the error
right after the request. -/
theorem updateFromOpenExchangeRates_error (lib : Lib) (net : Net) (conf : Config) (s : State)
    (e : Error)
    (h : net (ratesURL conf) = .error e ∨
      (∃ response, net (ratesURL conf) = .ok response ∧ response.Body = .error e) ∨
      (∃ response buf, net (ratesURL conf) = .ok response ∧ response.Body = .ok buf ∧
        lib.unmarshalRates buf = .error e)) :
    updateFromOpenExchangeRates lib net conf s =
      .ret (some e)
        ((s.emit (.println ("url " ++ ratesURL conf))).emit (.httpGet (ratesURL conf))) := by
  rcases h with h | ⟨response, h, hb⟩ | ⟨response, buf, h, hb, hd⟩
  · simp [updateFromOpenExchangeRates, getCoinOpenExchangeRates_transport lib net _ _ e (Or.inl h)]
  · simp [updateFromOpenExchangeRates,
      getCoinOpenExchangeRates_transport lib net _ _ e (Or.inr ⟨response, h, hb⟩)]
  · simp [updateFromOpenExchangeRates, getCoinOpenExchangeRates_ok lib net _ _ response buf h hb, hd]

/-- The crypto adapter when element 0 exists and its price parses: one `Save`
of the inverted price under ethSymbol, and nil. -/
theorem updateFromCoinMarketCap_ok (lib : Lib) (net : Net) (conf : Config) (s : State)
    (response : Response) (buf : String) (r0 : CoinMarketCapResponse)
    (rest : List CoinMarketCapResponse) (price : Float64)
    (hget : net conf.QuotesAPIURL.CoinMarketCap = .ok response) (hread : response.Body = .ok buf)
    (hdec : lib.unmarshalCoins buf = .ok (r0 :: rest))
    (hparse : lib.ParseFloat r0.PriceUsd = .ok price) :
    updateFromCoinMarketCap lib net conf s =
      .ret none ((s.emit (.httpGet conf.QuotesAPIURL.CoinMarketCap)).Save ethSymbol
        (InvertPrice price)) := by
  simp [updateFromCoinMarketCap, getCoinMarketCapResponse_ok lib net _ _ response buf hget hread,
    hdec, hparse]

/-- The crypto adapter on an error value: a failed fetch, a failed decode, or a
price that does not parse. It returns the error right after the request. -/
theorem updateFromCoinMarketCap_error (lib : Lib) (net : Net) (conf : Config) (s : State)
    (e : Error)
    (h : net conf.QuotesAPIURL.CoinMarketCap = .error e ∨
      (∃ response, net conf.QuotesAPIURL.CoinMarketCap = .ok response ∧
        response.Body = .error e) ∨
      (∃ response buf, net conf.QuotesAPIURL.CoinMarketCap = .ok response ∧
        response.Body = .ok buf ∧ lib.unmarshalCoins buf = .error e) ∨
      (∃ response buf r0 rest, net conf.QuotesAPIURL.CoinMarketCap = .ok response ∧
        response.Body = .ok buf ∧ lib.unmarshalCoins buf = .ok (r0 :: rest) ∧
        lib.ParseFloat r0.PriceUsd = .error e)) :
    updateFromCoinMarketCap lib net conf s =
      .ret (some e) (s.emit (.httpGet conf.QuotesAPIURL.CoinMarketCap)) := by
  rcases h with h | ⟨response, h, hb⟩ | ⟨response, buf, h, hb, hd⟩ |
    ⟨response, buf, r0, rest, h, hb, hd, hp⟩
  · simp [updateFromCoinMarketCap, getCoinMarketCapResponse_transport lib net _ _ e (Or.inl h)]
  · simp [updateFromCoinMarketCap,
      getCoinMarketCapResponse_transport lib net _ _ e (Or.inr ⟨response, h, hb⟩)]
  · simp [updateFromCoinMarketCap, getCoinMarketCapResponse_ok lib net _ _ response buf h hb, hd]
  · simp [updateFromCoinMarketCap, getCoinMarketCapResponse_ok lib net _ _ response buf h hb, hd,
      hp]

/-- The crypto adapter on an empty array: the index expression panics. -/
theorem updateFromCoinMarketCap_empty (lib : Lib) (net : Net) (conf : Config) (s : State)
    (response : Response) (buf : String)
    (hget : net conf.QuotesAPIURL.CoinMarketCap = .ok response) (hread : response.Body = .ok buf)
    (hdec : lib.unmarshalCoins buf = .ok []) :
    updateFromCoinMarketCap lib net conf s =
      .panic "runtime error: index out of range [0] with length 0"
        (s.emit (.httpGet conf.QuotesAPIURL.CoinMarketCap)) := by
  simp [updateFromCoinMarketCap, getCoinMarketCapResponse_ok lib net _ _ response buf hget hread,
    hdec]

/-- What the rates adapter does is fixed by the library, the network and the
configuration: either it returns one and the same error from every state, or
it runs the loop for one and the same response from every state. -/
theorem updateFromOpenExchangeRates_shape (lib : Lib) (net : Net) (conf : Config) :
    (∃ e, ∀ s, updateFromOpenExchangeRates lib net conf s =
      .ret (some e)
        ((s.emit (.println ("url " ++ ratesURL conf))).emit (.httpGet (ratesURL conf)))) ∨
    (∃ r, ∀ s, updateFromOpenExchangeRates lib net conf s =
      .ret none (rangeSupported r supportedCurrencies
        ((s.emit (.println ("url " ++ ratesURL conf))).emit (.httpGet (ratesURL conf))))) := by
  cases hget : net (ratesURL conf) with
  | error e =>
    exact Or.inl ⟨e, fun s => updateFromOpenExchangeRates_error lib net conf s e (Or.inl hget)⟩
  | ok response =>
    cases hread : response.Body with
    | error e =>
      exact Or.inl ⟨e, fun s => updateFromOpenExchangeRates_error lib net conf s e
        (Or.inr (Or.inl ⟨response, hget, hread⟩))⟩
    | ok buf =>
      cases hdec : lib.unmarshalRates buf with
      | error e =>
        exact Or.inl ⟨e, fun s => updateFromOpenExchangeRates_error lib net conf s e
          (Or.inr (Or.inr ⟨response, buf, hget, hread, hdec⟩))⟩
      | ok r =>
        exact Or.inr ⟨r, fun s =>
          updateFromOpenExchangeRates_ok lib net conf s response buf r hget hread hdec⟩

/-- What the crypto adapter does is fixed by the library, the network and the
configuration: from every state it returns the same error, or saves the same
value under ethSymbol, or panics on the empty array. -/
theorem updateFromCoinMarketCap_shape (lib : Lib) (net : Net) (conf : Config) :
    (∃ e, ∀ s, updateFromCoinMarketCap lib net conf s =
      .ret (some e) (s.emit (.httpGet conf.QuotesAPIURL.CoinMarketCap))) ∨
    (∃ v, ∀ s, updateFromCoinMarketCap lib net conf s =
      .ret none ((s.emit (.httpGet conf.QuotesAPIURL.CoinMarketCap)).Save ethSymbol v)) ∨
    (∀ s, updateFromCoinMarketCap lib net conf s =
      .panic "runtime error: index out of range [0] with length 0"
        (s.emit (.httpGet conf.QuotesAPIURL.CoinMarketCap))) := by
  cases hget : net conf.QuotesAPIURL.CoinMarketCap with
  | error e =>
    exact Or.inl ⟨e, fun s => updateFromCoinMarketCap_error lib net conf s e (Or.inl hget)⟩
  | ok response =>
    cases hread : response.Body with
    | error e =>
      exact Or.inl ⟨e, fun s => updateFromCoinMarketCap_error lib net conf s e
        (Or.inr (Or.inl ⟨response, hget, hread⟩))⟩
    | ok buf =>
      cases hdec : lib.unmarshalCoins buf with
      | error e =>
        exact Or.inl ⟨e, fun s => updateFromCoinMarketCap_error lib net conf s e
          (Or.inr (Or.inr (Or.inl ⟨response, buf, hget, hread, hdec⟩)))⟩
      | ok resp =>
        cases resp with
        | nil =>
          exact Or.inr (Or.inr fun s =>
            updateFromCoinMarketCap_empty lib net conf s response buf hget hread hdec)
        | cons r0 rest =>
          cases hparse : lib.ParseFloat r0.PriceUsd with
          | error e =>
            exact Or.inl ⟨e, fun s => updateFromCoinMarketCap_error lib net conf s e
              (Or.inr (Or.inr (Or.inr ⟨response, buf, r0, rest, hget, hread, hdec, hparse⟩)))⟩
          | ok price =>
            exact Or.inr (Or.inl ⟨InvertPrice price, fun s =>
              updateFromCoinMarketCap_ok lib net conf s response buf r0 rest price hget hread
                hdec hparse⟩)

/-- The crypto adapter writes no entry other than the one of ethSymbol, whatever
it receives. -/
theorem updateFromCoinMarketCap_only_ETH (lib : Lib) (net : Net) (conf : Config) (s : State)
    (c : String) (hc : c ≠ "ETH") :
    (updateFromCoinMarketCap lib net conf s).state.p.Get c = s.p.Get c := by
  rcases updateFromCoinMarketCap_shape lib net conf with ⟨e, h⟩ | ⟨v, h⟩ | h
  · rw [h s]; rfl
  · rw [h s]; simp [Outcome.state, Get_Save, ethSymbol, hc]
  · rw [h s]; rfl

/-- One iteration in which both adapters return: the calls of the rates adapter
all come before the request of the crypto adapter, which is made after
`go treatError(e1)`; the wait and the sleep come last. -/
theorem cycle_of_returns (lib : Lib) (conf : Config) (netRates netCrypto : Net) (s : State)
    (hwg : s.wg = 0) (e1 e2 : Option Error) (f g : State → State)
    (hf : ∀ t, (f t).wg = t.wg ∧ (f t).logged = t.logged)
    (hg : ∀ t, (g t).wg = t.wg ∧ (g t).logged = t.logged)
    (h1 : ∀ t, updateFromOpenExchangeRates lib netRates conf t = .ret e1 (f t))
    (h2 : ∀ t, updateFromCoinMarketCap lib netCrypto conf t = .ret e2 (g t)) :
    ∃ s1, cycle lib conf netRates netCrypto s = .ret () s1 ∧
      s1.p = (g ((f { s.emit (.wgAdd 2) with wg := s.wg + 2 }).emit (.go e1))).p ∧
      s1.calls = (g ((f { s.emit (.wgAdd 2) with wg := s.wg + 2 }).emit (.go e1))).calls ++
        [.go e2, .wgWait, .sleep (wrapInt64 (1000000 * conf.WorkerUpdateInterval))] ∧
      s1.logged = s.logged ++ e1.toList ++ e2.toList ∧ s1.wg = 0 := by
  have hadd : wgAdd 2 (s.emit (.wgAdd 2)) = .ret () { s.emit (.wgAdd 2) with wg := s.wg + 2 } := by
    simp [wgAdd, hwg]
  have hwg1 : (g ((f { s.emit (.wgAdd 2) with wg := s.wg + 2 }).emit (.go e1))).wg = 2 := by
    simp [(hg _).1, (hf _).1, hwg]
  have hlog1 : (g ((f { s.emit (.wgAdd 2) with wg := s.wg + 2 }).emit (.go e1))).logged
      = s.logged := by
    simp [(hg _).2, (hf _).2]
  unfold cycle
  rw [hadd]
  simp only [Outcome.bind, h1, h2]
  generalize g ((f { s.emit (.wgAdd 2) with wg := s.wg + 2 }).emit (.go e1)) = w at hwg1 hlog1
  cases e1 <;> cases e2 <;> simp [treatError, wgAdd, hwg1, hlog1, Outcome.bind, State.emit]

/-- The float64 constant 0.0005 as an exact rational, and its distance from
1/2000: at most half a unit in the last place. -/
theorem ofFrac_5_10000_value :
    Float64.ofFrac false 5 10000 = .finite false 4611686018427388 (-63) ∧
    Float64.toRat? (.finite false 4611686018427388 (-63)) = some (4611686018427388 / 2 ^ 63) ∧
    |(4611686018427388 / 2 ^ 63 : ℚ) - 1 / 2000| ≤ 1 / 2 ^ 65 := by
  refine ⟨by decide, ?_, ?_⟩
  · norm_num [Float64.toRat?, zpow_neg, div_eq_mul_inv]
  · rw [abs_le]
    constructor <;> norm_num

/-- A cycle that returns leaves the WaitGroup counter at zero, which is the
condition under which the next cycle starts. -/
theorem cycle_ret_wg (lib : Lib) (conf : Config) (netRates netCrypto : Net) (s s1 : State)
    (h : cycle lib conf netRates netCrypto s = .ret () s1) : s1.wg = 0 := by
  unfold cycle at h
  simp only [Outcome.bind] at h
  repeat' split at h
  all_goals (first | (cases h; assumption) | simp_all)

/-! ## The rates adapter -/

/-- C1 (frame of the rates adapter): after a successful fetch and decode to `r`,
updateFromOpenExchangeRates returns, and the store differs from the store
before only at codes that are in supportedCurrencies and quoted by `r`: every
other code reads as before (so an unsupported code that was absent stays
absent), and the `Save` calls made are exactly those for the supported codes
quoted by `r`. -/
theorem C1_rates_frame (lib : Lib) (net : Net) (conf : Config) (s : State)
    (response : Response) (buf : String) (r : OpenExchangeRatesResponse)
    (hget : net (ratesURL conf) = .ok response) (hread : response.Body = .ok buf)
    (hdec : lib.unmarshalRates buf = .ok r) :
    ∃ s1, updateFromOpenExchangeRates lib net conf s = .ret none s1 ∧
      (∀ c, (c ∉ supportedCurrencies ∨ r.Rates c = none) → s1.p.Get c = s.p.Get c) ∧
      (∀ c, c ∉ supportedCurrencies → s.p.Get c = none → s1.p.Get c = none) ∧
      savesOf s1.calls = savesOf s.calls ++ rateSaves r supportedCurrencies ∧
      (∀ c v, (c, v) ∈ rateSaves r supportedCurrencies →
        c ∈ supportedCurrencies ∧ r.Rates c = some v) := by
  refine ⟨_, updateFromOpenExchangeRates_ok lib net conf s response buf r hget hread hdec,
    ?_, ?_, ?_, ?_⟩
  · intro c hc
    rw [rangeSupported_Get]
    rcases hc with hc | hc
    · simp [hc]
    · simp [hc]
  · intro c hc hnone
    rw [rangeSupported_Get]
    simp [hc, hnone]
  · rw [rangeSupported_calls, savesOf_append, savesOf_map_save]
    simp [savesOf_append, savesOf]
  · intro c v hcv
    simp only [rateSaves, List.mem_filterMap] at hcv
    obtain ⟨d, hd, h⟩ := hcv
    cases hr : r.Rates d with
    | none => simp [hr] at h
    | some w =>
      simp [hr] at h
      obtain ⟨rfl, rfl⟩ := h
      exact ⟨hd, hr⟩

/-- C1 at the scenario response (USD, BRL and the unsupported XYZ), from a store
that already holds EUR. -/
theorem C1_rates_frame_witness :
    netBody scenarioBody (ratesURL demoConfig) = .ok ⟨.ok scenarioBody⟩ ∧
    demoLib.unmarshalRates scenarioBody = .ok scenarioRates ∧
    ∃ s1, updateFromOpenExchangeRates demoLib (netBody scenarioBody) demoConfig
        (State.init.Save "EUR" (.ofFrac false 9 10)) = .ret none s1 ∧
      (∀ c, (c ∉ supportedCurrencies ∨ scenarioRates.Rates c = none) →
        s1.p.Get c = (State.init.Save "EUR" (.ofFrac false 9 10)).p.Get c) ∧
      (∀ c, c ∉ supportedCurrencies →
        (State.init.Save "EUR" (.ofFrac false 9 10)).p.Get c = none → s1.p.Get c = none) ∧
      savesOf s1.calls = savesOf (State.init.Save "EUR" (.ofFrac false 9 10)).calls ++
        rateSaves scenarioRates supportedCurrencies ∧
      (∀ c v, (c, v) ∈ rateSaves scenarioRates supportedCurrencies →
        c ∈ supportedCurrencies ∧ scenarioRates.Rates c = some v) :=
  ⟨rfl, rfl, C1_rates_frame demoLib (netBody scenarioBody) demoConfig
    (State.init.Save "EUR" (.ofFrac false 9 10)) ⟨.ok scenarioBody⟩ scenarioBody scenarioRates
    rfl rfl rfl⟩

/-- C2 (what the rates adapter stores): after a successful fetch and decode to
`r`, updateFromOpenExchangeRates returns nil and every code of
supportedCurrencies that `r` quotes is stored with exactly the quoted value. -/
theorem C2_rates_saved (lib : Lib) (net : Net) (conf : Config) (s : State)
    (response : Response) (buf : String) (r : OpenExchangeRatesResponse)
    (hget : net (ratesURL conf) = .ok response) (hread : response.Body = .ok buf)
    (hdec : lib.unmarshalRates buf = .ok r) :
    ∃ s1, updateFromOpenExchangeRates lib net conf s = .ret none s1 ∧
      ∀ c v, c ∈ supportedCurrencies → r.Rates c = some v → s1.p.Get c = some v := by
  refine ⟨_, updateFromOpenExchangeRates_ok lib net conf s response buf r hget hread hdec, ?_⟩
  intro c v hc hv
  rw [rangeSupported_Get]
  simp [hc, hv]

/-- C2 at the scenario: from the empty store, the rates USD 1.0, BRL 5.0 and
XYZ 9.9 leave USD = 1.0 and BRL = 5.0 stored and no entry for XYZ. -/
theorem C2_rates_saved_witness :
    (netBody scenarioBody (ratesURL demoConfig) = .ok ⟨.ok scenarioBody⟩ ∧
     demoLib.unmarshalRates scenarioBody = .ok scenarioRates ∧
     ∃ s1, updateFromOpenExchangeRates demoLib (netBody scenarioBody) demoConfig State.init
         = .ret none s1 ∧
       ∀ c v, c ∈ supportedCurrencies → scenarioRates.Rates c = some v → s1.p.Get c = some v) ∧
    (updateFromOpenExchangeRates demoLib (netBody scenarioBody) demoConfig State.init).returned?
      = some none ∧
    (updateFromOpenExchangeRates demoLib (netBody scenarioBody) demoConfig State.init).state.p.Get
      "USD" = some (.ofFrac false 1 1) ∧
    (updateFromOpenExchangeRates demoLib (netBody scenarioBody) demoConfig State.init).state.p.Get
      "BRL" = some (.ofFrac false 5 1) ∧
    (updateFromOpenExchangeRates demoLib (netBody scenarioBody) demoConfig State.init).state.p.Get
      "XYZ" = none ∧
    savesOf
      (updateFromOpenExchangeRates demoLib (netBody scenarioBody) demoConfig State.init).state.calls
      = [("USD", .ofFrac false 1 1), ("BRL", .ofFrac false 5 1)] :=
  ⟨⟨rfl, rfl, C2_rates_saved demoLib (netBody scenarioBody) demoConfig State.init
      ⟨.ok scenarioBody⟩ scenarioBody scenarioRates rfl rfl rfl⟩,
    by decide, by decide, by decide, by decide, by decide⟩

/-- C3 (all-or-nothing for the rates adapter): when `http.Get` fails, or reading
the body fails, or the JSON decode fails, with error `e`,
updateFromOpenExchangeRates returns `e`, makes no `Save` call and leaves the
store as it was. -/
theorem C3_rates_all_or_nothing (lib : Lib) (net : Net) (conf : Config) (s : State) (e : Error)
    (h : net (ratesURL conf) = .error e ∨
      (∃ response, net (ratesURL conf) = .ok response ∧ response.Body = .error e) ∨
      (∃ response buf, net (ratesURL conf) = .ok response ∧ response.Body = .ok buf ∧
        lib.unmarshalRates buf = .error e)) :
    ∃ s1, updateFromOpenExchangeRates lib net conf s = .ret (some e) s1 ∧
      s1.p = s.p ∧ savesOf s1.calls = savesOf s.calls := by
  refine ⟨_, updateFromOpenExchangeRates_error lib net conf s e h, rfl, ?_⟩
  simp [savesOf_append, savesOf]

/-- C3 at the scenario of two consecutive cycles: the first stores USD = 1.0,
in the second the rates request fails in transport; the adapter returns the
transport error and USD still reads 1.0 afterwards. -/
theorem C3_rates_all_or_nothing_witness :
    (∃ s1, updateFromOpenExchangeRates demoLib netDown demoConfig
        (cycle demoLib demoConfig (netBody usdBody) (netBody (coinBody "2000.0"))
          State.init).state = .ret (some ⟨"dial tcp: connection refused"⟩) s1 ∧
      s1.p = (cycle demoLib demoConfig (netBody usdBody) (netBody (coinBody "2000.0"))
          State.init).state.p ∧
      savesOf s1.calls = savesOf (cycle demoLib demoConfig (netBody usdBody)
          (netBody (coinBody "2000.0")) State.init).state.calls) ∧
    (cycle demoLib demoConfig (netBody usdBody) (netBody (coinBody "2000.0"))
      State.init).state.p.Get "USD" = some (.ofFrac false 1 1) ∧
    (Run demoLib demoConfig
      [(netBody usdBody, netBody (coinBody "2000.0")), (netDown, netBody (coinBody "2000.0"))]
      State.init).returned? = some () ∧
    (Run demoLib demoConfig
      [(netBody usdBody, netBody (coinBody "2000.0")), (netDown, netBody (coinBody "2000.0"))]
      State.init).state.p.Get "USD" = some (.ofFrac false 1 1) ∧
    (Run demoLib demoConfig
      [(netBody usdBody, netBody (coinBody "2000.0")), (netDown, netBody (coinBody "2000.0"))]
      State.init).state.logged = [⟨"dial tcp: connection refused"⟩] :=
  ⟨C3_rates_all_or_nothing demoLib netDown demoConfig _ ⟨"dial tcp: connection refused"⟩
      (Or.inl rfl),
    by decide, by decide, by decide, by decide⟩

/-! ## The crypto adapter -/

/-- C4 (inversion): when the crypto response decodes to an array whose element 0
has a `price_usd` that parses to `price`, updateFromCoinMarketCap returns nil
and makes exactly one `Save` call, with key "ETH" and value `1.0 / price`; the
elements after element 0 play no part in the result. -/
theorem C4_crypto_inversion (lib : Lib) (net : Net) (conf : Config) (s : State)
    (response : Response) (buf : String) (r0 : CoinMarketCapResponse)
    (rest : List CoinMarketCapResponse) (price : Float64)
    (hget : net conf.QuotesAPIURL.CoinMarketCap = .ok response) (hread : response.Body = .ok buf)
    (hdec : lib.unmarshalCoins buf = .ok (r0 :: rest))
    (hparse : lib.ParseFloat r0.PriceUsd = .ok price) :
    ∃ s1, updateFromCoinMarketCap lib net conf s = .ret none s1 ∧
      savesOf s1.calls = savesOf s.calls ++ [("ETH", Float64.div Float64.one price)] ∧
      s1.p = s.p.Save "ETH" (Float64.div Float64.one price) ∧
      s1.p.Get "ETH" = some (Float64.div Float64.one price) := by
  refine ⟨_, updateFromCoinMarketCap_ok lib net conf s response buf r0 rest price hget hread hdec
    hparse, ?_, rfl, ?_⟩
  · simp [savesOf_append, savesOf, InvertPrice, ethSymbol]
  · simp [Get_Save, InvertPrice, ethSymbol]

/-- C4 at `price_usd` "2000.0" and "2500.00": the stored ETH values are the
float64 nearest to 1/2000 and to 1/2500, which are the float64 constants 0.0005
and 0.0004. -/
theorem C4_crypto_inversion_witness :
    (demoLib.unmarshalCoins (coinBody "2000.0") = .ok [⟨"2000.0"⟩] ∧
     demoLib.ParseFloat "2000.0" = .ok (.ofFrac false 2000 1) ∧
     ∃ s1, updateFromCoinMarketCap demoLib (netBody (coinBody "2000.0")) demoConfig State.init
         = .ret none s1 ∧
       savesOf s1.calls = savesOf State.init.calls ++
         [("ETH", Float64.div Float64.one (.ofFrac false 2000 1))] ∧
       s1.p = State.init.p.Save "ETH" (Float64.div Float64.one (.ofFrac false 2000 1)) ∧
       s1.p.Get "ETH" = some (Float64.div Float64.one (.ofFrac false 2000 1))) ∧
    (demoLib.unmarshalCoins (coinBody "2500.00") = .ok [⟨"2500.00"⟩] ∧
     demoLib.ParseFloat "2500.00" = .ok (.ofFrac false 2500 1) ∧
     ∃ s1, updateFromCoinMarketCap demoLib (netBody (coinBody "2500.00")) demoConfig State.init
         = .ret none s1 ∧
       savesOf s1.calls = savesOf State.init.calls ++
         [("ETH", Float64.div Float64.one (.ofFrac false 2500 1))] ∧
       s1.p = State.init.p.Save "ETH" (Float64.div Float64.one (.ofFrac false 2500 1)) ∧
       s1.p.Get "ETH" = some (Float64.div Float64.one (.ofFrac false 2500 1))) ∧
    Float64.div Float64.one (.ofFrac false 2000 1) = .ofFrac false 5 10000 ∧
    Float64.div Float64.one (.ofFrac false 2500 1) = .ofFrac false 4 10000 ∧
    Float64.ofFrac false 5 10000 = .finite false 4611686018427388 (-63) ∧
    Float64.ofFrac false 4 10000 = .finite false 7378697629483821 (-64) ∧
    (updateFromCoinMarketCap demoLib (netBody (coinBody "2000.0")) demoConfig
      State.init).state.p.Get "ETH" = some (.ofFrac false 5 10000) ∧
    (updateFromCoinMarketCap demoLib (netBody (coinBody "2500.00")) demoConfig
      State.init).state.p.Get "ETH" = some (.ofFrac false 4 10000) :=
  ⟨⟨by decide, by decide,
      C4_crypto_inversion demoLib (netBody (coinBody "2000.0")) demoConfig State.init
        ⟨.ok (coinBody "2000.0")⟩ (coinBody "2000.0") ⟨"2000.0"⟩ [] (.ofFrac false 2000 1)
        rfl rfl (by decide) (by decide)⟩,
    ⟨by decide, by decide,
      C4_crypto_inversion demoLib (netBody (coinBody "2500.00")) demoConfig State.init
        ⟨.ok (coinBody "2500.00")⟩ (coinBody "2500.00") ⟨"2500.00"⟩ [] (.ofFrac false 2500 1)
        rfl rfl (by decide) (by decide)⟩,
    by decide, by decide, by decide, by decide, by decide, by decide⟩

/-- C5, as the claim states it, fails: with `price_usd` "0", which parses to zero,
updateFromCoinMarketCap returns nil, not an error, and makes one `Save` call
that stores +Inf under "ETH". -/
theorem C5_zero_price_counterexample :
    demoLib.unmarshalCoins (coinBody "0") = .ok [⟨"0"⟩] ∧
    demoLib.ParseFloat "0" = .ok Float64.zero ∧
    (updateFromCoinMarketCap demoLib (netBody (coinBody "0")) demoConfig State.init).returned?
      = some none ∧
    savesOf (updateFromCoinMarketCap demoLib (netBody (coinBody "0")) demoConfig
      State.init).state.calls = [("ETH", .inf false)] ∧
    (updateFromCoinMarketCap demoLib (netBody (coinBody "0")) demoConfig
      State.init).state.p.Get "ETH" = some (.inf false) ∧
    ¬ ∃ e s1, updateFromCoinMarketCap demoLib (netBody (coinBody "0")) demoConfig State.init
      = .ret (some e) s1 :=
  ⟨by decide, by decide, by decide, by decide, by decide, by
    rintro ⟨e, s1, h⟩
    have h2 := congrArg Outcome.returned? h
    revert h2
    have h3 : (updateFromCoinMarketCap demoLib (netBody (coinBody "0")) demoConfig
        State.init).returned? = some none := by decide
    rw [h3]
    intro h2
    cases h2⟩

/-- C5, amended: when element 0 of the crypto response has `price_usd` "0" and it
parses to zero, updateFromCoinMarketCap returns nil and makes exactly one `Save`
call, which stores `1.0 / 0`, that is +Inf, under "ETH". -/
theorem C5_zero_price_stored (lib : Lib) (net : Net) (conf : Config) (s : State)
    (response : Response) (buf : String) (r0 : CoinMarketCapResponse)
    (rest : List CoinMarketCapResponse)
    (hget : net conf.QuotesAPIURL.CoinMarketCap = .ok response) (hread : response.Body = .ok buf)
    (hdec : lib.unmarshalCoins buf = .ok (r0 :: rest)) (hzero : r0.PriceUsd = "0")
    (hparse : lib.ParseFloat "0" = .ok Float64.zero) :
    ∃ s1, updateFromCoinMarketCap lib net conf s = .ret none s1 ∧
      savesOf s1.calls = savesOf s.calls ++ [("ETH", .inf false)] ∧
      s1.p = s.p.Save "ETH" (.inf false) ∧
      s1.p.Get "ETH" = some (.inf false) := by
  have hinv : InvertPrice Float64.zero = .inf false := by decide
  refine ⟨_, updateFromCoinMarketCap_ok lib net conf s response buf r0 rest Float64.zero hget hread
    hdec (by rw [hzero]; exact hparse), ?_, ?_, ?_⟩
  · simp [savesOf_append, savesOf, hinv, ethSymbol]
  · simp [hinv, ethSymbol]
  · simp [Get_Save, hinv, ethSymbol]

/-- C5 amended, at the body with the single price "0" and the store that already
holds an ETH price. -/
theorem C5_zero_price_stored_witness :
    demoLib.unmarshalCoins (coinBody "0") = .ok [⟨"0"⟩] ∧
    demoLib.ParseFloat "0" = .ok Float64.zero ∧
    ∃ s1, updateFromCoinMarketCap demoLib (netBody (coinBody "0")) demoConfig
        (State.init.Save "ETH" (.ofFrac false 5 10000)) = .ret none s1 ∧
      savesOf s1.calls = savesOf (State.init.Save "ETH" (.ofFrac false 5 10000)).calls ++
        [("ETH", .inf false)] ∧
      s1.p = (State.init.Save "ETH" (.ofFrac false 5 10000)).p.Save "ETH" (.inf false) ∧
      s1.p.Get "ETH" = some (.inf false) :=
  ⟨by decide, by decide,
    C5_zero_price_stored demoLib (netBody (coinBody "0")) demoConfig
      (State.init.Save "ETH" (.ofFrac false 5 10000)) ⟨.ok (coinBody "0")⟩ (coinBody "0") ⟨"0"⟩ []
      rfl rfl (by decide) rfl (by decide)⟩

/-- C6 fails on the code: when the crypto response decodes to the empty array,
updateFromCoinMarketCap does not return an error value; the index expression
`resp[0]` panics (before any `Save`), and the panic ends the cycle and the
process. -/
theorem C6_empty_array_panics :
    demoLib.unmarshalCoins "[]" = .ok [] ∧
    (updateFromCoinMarketCap demoLib (netBody "[]") demoConfig State.init).panicked?
      = some "runtime error: index out of range [0] with length 0" ∧
    (updateFromCoinMarketCap demoLib (netBody "[]") demoConfig State.init).returned? = none ∧
    savesOf (updateFromCoinMarketCap demoLib (netBody "[]") demoConfig State.init).state.calls
      = [] ∧
    (Run demoLib demoConfig [(netBody usdBody, netBody "[]"), (netBody usdBody, netBody "[]")]
      State.init).panicked? = some "runtime error: index out of range [0] with length 0" :=
  ⟨by decide, by decide, by decide, by decide, by decide⟩

/-- C10 (errors of the crypto adapter): when the price of element 0 does not
parse, or `http.Get`, reading the body or the JSON decode fails, with error `e`,
updateFromCoinMarketCap returns `e`, makes no `Save` call and leaves the store
as it was. -/
theorem C10_crypto_errors (lib : Lib) (net : Net) (conf : Config) (s : State) (e : Error)
    (h : net conf.QuotesAPIURL.CoinMarketCap = .error e ∨
      (∃ response, net conf.QuotesAPIURL.CoinMarketCap = .ok response ∧
        response.Body = .error e) ∨
      (∃ response buf, net conf.QuotesAPIURL.CoinMarketCap = .ok response ∧
        response.Body = .ok buf ∧ lib.unmarshalCoins buf = .error e) ∨
      (∃ response buf r0 rest, net conf.QuotesAPIURL.CoinMarketCap = .ok response ∧
        response.Body = .ok buf ∧ lib.unmarshalCoins buf = .ok (r0 :: rest) ∧
        lib.ParseFloat r0.PriceUsd = .error e)) :
    ∃ s1, updateFromCoinMarketCap lib net conf s = .ret (some e) s1 ∧
      s1.p = s.p ∧ savesOf s1.calls = savesOf s.calls := by
  refine ⟨_, updateFromCoinMarketCap_error lib net conf s e h, rfl, ?_⟩
  simp [savesOf_append, savesOf]

/-- C10 at the price "n/a", from a store that holds an ETH price: the parse
error is returned and the ETH entry is unchanged. -/
theorem C10_crypto_errors_witness :
    demoLib.unmarshalCoins (coinBody "n/a") = .ok [⟨"n/a"⟩] ∧
    demoLib.ParseFloat "n/a" = .error ⟨"strconv.ParseFloat: invalid syntax"⟩ ∧
    (∃ s1, updateFromCoinMarketCap demoLib (netBody (coinBody "n/a")) demoConfig
        (State.init.Save "ETH" (.ofFrac false 5 10000))
        = .ret (some ⟨"strconv.ParseFloat: invalid syntax"⟩) s1 ∧
      s1.p = (State.init.Save "ETH" (.ofFrac false 5 10000)).p ∧
      savesOf s1.calls = savesOf (State.init.Save "ETH" (.ofFrac false 5 10000)).calls) ∧
    (updateFromCoinMarketCap demoLib (netBody (coinBody "n/a")) demoConfig
      (State.init.Save "ETH" (.ofFrac false 5 10000))).state.p.Get "ETH"
      = some (.ofFrac false 5 10000) :=
  ⟨by decide, by decide,
    C10_crypto_errors demoLib (netBody (coinBody "n/a")) demoConfig
      (State.init.Save "ETH" (.ofFrac false 5 10000)) ⟨"strconv.ParseFloat: invalid syntax"⟩
      (Or.inr (Or.inr (Or.inr ⟨⟨.ok (coinBody "n/a")⟩, coinBody "n/a", ⟨"n/a"⟩, [],
        rfl, rfl, by decide, by decide⟩))),
    by decide⟩

/-! ## One cycle of `Run` -/

/-- Isolation of a returned error: in a cycle started with the WaitGroup counter
at zero in which one adapter returns an error `e` and the other returns nil,
the cycle returns; the store afterwards is the store that the successful
adapter alone produces from the store before, the failed adapter changes no
entry and makes no `Save` call, `e` is logged and nothing else is, and `Run`
goes on with the next cycle. A failure that is not a returned error (the panic
of the crypto adapter on an empty array) is outside this statement. -/
theorem cycle_isolates_error_return (lib : Lib) (conf : Config) (netRates netCrypto : Net)
    (s : State) (hwg : s.wg = 0) :
    (∀ e sR sC, updateFromOpenExchangeRates lib netRates conf s = .ret (some e) sR →
      updateFromCoinMarketCap lib netCrypto conf s = .ret none sC →
      ∃ s1, cycle lib conf netRates netCrypto s = .ret () s1 ∧
        s1.p = sC.p ∧ sR.p = s.p ∧ savesOf sR.calls = savesOf s.calls ∧
        savesOf s1.calls = savesOf sC.calls ∧
        s1.logged = s.logged ++ [e] ∧ s1.wg = 0 ∧
        ∀ rest, Run lib conf ((netRates, netCrypto) :: rest) s = Run lib conf rest s1) ∧
    (∀ e sR sC, updateFromOpenExchangeRates lib netRates conf s = .ret none sR →
      updateFromCoinMarketCap lib netCrypto conf s = .ret (some e) sC →
      ∃ s1, cycle lib conf netRates netCrypto s = .ret () s1 ∧
        s1.p = sR.p ∧ sC.p = s.p ∧ savesOf sC.calls = savesOf s.calls ∧
        savesOf s1.calls = savesOf sR.calls ∧
        s1.logged = s.logged ++ [e] ∧ s1.wg = 0 ∧
        ∀ rest, Run lib conf ((netRates, netCrypto) :: rest) s = Run lib conf rest s1) := by
  constructor
  · intro e sR sC hR hC
    rcases updateFromOpenExchangeRates_shape lib netRates conf with ⟨e1, h1⟩ | ⟨r, h1⟩
    swap
    · rw [h1 s] at hR
      simp at hR
    rcases updateFromCoinMarketCap_shape lib netCrypto conf with ⟨e2, h2⟩ | ⟨v, h2⟩ | h2
    · rw [h2 s] at hC
      simp at hC
    swap
    · rw [h2 s] at hC
      simp at hC
    rw [h1 s] at hR
    rw [h2 s] at hC
    simp only [Outcome.ret.injEq, Option.some.injEq] at hR hC
    obtain ⟨he, hsR⟩ := hR
    obtain ⟨-, hsC⟩ := hC
    subst he
    subst hsR
    subst hsC
    obtain ⟨s1, hcyc, hp, hcalls, hlog, hwg1⟩ :=
      cycle_of_returns lib conf netRates netCrypto s hwg (some e1) none
        (fun t => (t.emit (.println ("url " ++ ratesURL conf))).emit (.httpGet (ratesURL conf)))
        (fun t => (t.emit (.httpGet conf.QuotesAPIURL.CoinMarketCap)).Save ethSymbol v)
        (fun t => ⟨rfl, rfl⟩) (fun t => ⟨rfl, rfl⟩) h1 h2
    refine ⟨s1, hcyc, ?_, rfl, ?_, ?_, ?_, hwg1, ?_⟩
    · rw [hp]
      rfl
    · simp [savesOf_append, savesOf]
    · rw [hcalls]
      simp [savesOf_append, savesOf]
    · simpa using hlog
    · intro rest
      simp [Run, hcyc, Outcome.bind]
  · intro e sR sC hR hC
    rcases updateFromOpenExchangeRates_shape lib netRates conf with ⟨e1, h1⟩ | ⟨r, h1⟩
    · rw [h1 s] at hR
      simp at hR
    rcases updateFromCoinMarketCap_shape lib netCrypto conf with ⟨e2, h2⟩ | ⟨v, h2⟩ | h2
    swap
    · rw [h2 s] at hC
      simp at hC
    swap
    · rw [h2 s] at hC
      simp at hC
    rw [h1 s] at hR
    rw [h2 s] at hC
    simp only [Outcome.ret.injEq, Option.some.injEq] at hR hC
    obtain ⟨-, hsR⟩ := hR
    obtain ⟨he, hsC⟩ := hC
    subst he
    subst hsR
    subst hsC
    obtain ⟨s1, hcyc, hp, hcalls, hlog, hwg1⟩ :=
      cycle_of_returns lib conf netRates netCrypto s hwg none (some e2)
        (fun t => rangeSupported r supportedCurrencies
          ((t.emit (.println ("url " ++ ratesURL conf))).emit (.httpGet (ratesURL conf))))
        (fun t => t.emit (.httpGet conf.QuotesAPIURL.CoinMarketCap))
        (fun t => by
          have h := rangeSupported_wg_logged r supportedCurrencies
            ((t.emit (.println ("url " ++ ratesURL conf))).emit (.httpGet (ratesURL conf)))
          simpa using h)
        (fun t => ⟨rfl, rfl⟩) h1 h2
    refine ⟨s1, hcyc, ?_, rfl, ?_, ?_, ?_, hwg1, ?_⟩
    · rw [hp]
      simp only [emit_p]
      exact rangeSupported_p_congr r supportedCurrencies _ _ rfl
    · simp [savesOf_append, savesOf]
    · rw [hcalls]
      simp [savesOf_append, savesOf, rangeSupported_calls, savesOf_map_save]
    · simpa using hlog
    · intro rest
      simp [Run, hcyc, Outcome.bind]

/-- Isolation of a returned error at two cycles from the initial state: one in
which the rates request fails in transport and the crypto feed quotes 2000.0,
and one in which the rates feed quotes USD 1.0 and the crypto request fails in
transport. -/
theorem cycle_isolates_error_return_example :
    State.init.wg = 0 ∧
    (∃ s1, cycle demoLib demoConfig netDown (netBody (coinBody "2000.0")) State.init
        = .ret () s1 ∧
      s1.p = ((State.init.emit (.httpGet demoConfig.QuotesAPIURL.CoinMarketCap)).Save ethSymbol
        (InvertPrice (.ofFrac false 2000 1))).p ∧
      ((State.init.emit (.println ("url " ++ ratesURL demoConfig))).emit
        (.httpGet (ratesURL demoConfig))).p = State.init.p ∧
      savesOf ((State.init.emit (.println ("url " ++ ratesURL demoConfig))).emit
        (.httpGet (ratesURL demoConfig))).calls = savesOf State.init.calls ∧
      savesOf s1.calls = savesOf ((State.init.emit
        (.httpGet demoConfig.QuotesAPIURL.CoinMarketCap)).Save ethSymbol
        (InvertPrice (.ofFrac false 2000 1))).calls ∧
      s1.logged = State.init.logged ++ [⟨"dial tcp: connection refused"⟩] ∧ s1.wg = 0 ∧
      ∀ rest, Run demoLib demoConfig ((netDown, netBody (coinBody "2000.0")) :: rest) State.init
        = Run demoLib demoConfig rest s1) ∧
    (∃ s1, cycle demoLib demoConfig (netBody usdBody) netDown State.init = .ret () s1 ∧
      s1.p = (rangeSupported usdRates supportedCurrencies
        ((State.init.emit (.println ("url " ++ ratesURL demoConfig))).emit
          (.httpGet (ratesURL demoConfig)))).p ∧
      (State.init.emit (.httpGet demoConfig.QuotesAPIURL.CoinMarketCap)).p = State.init.p ∧
      savesOf (State.init.emit (.httpGet demoConfig.QuotesAPIURL.CoinMarketCap)).calls
        = savesOf State.init.calls ∧
      savesOf s1.calls = savesOf (rangeSupported usdRates supportedCurrencies
        ((State.init.emit (.println ("url " ++ ratesURL demoConfig))).emit
          (.httpGet (ratesURL demoConfig)))).calls ∧
      s1.logged = State.init.logged ++ [⟨"dial tcp: connection refused"⟩] ∧ s1.wg = 0 ∧
      ∀ rest, Run demoLib demoConfig ((netBody usdBody, netDown) :: rest) State.init
        = Run demoLib demoConfig rest s1) ∧
    (cycle demoLib demoConfig netDown (netBody (coinBody "2000.0")) State.init).state.p.Get "ETH"
      = some (.ofFrac false 5 10000) ∧
    (cycle demoLib demoConfig netDown (netBody (coinBody "2000.0")) State.init).state.p.Get "USD"
      = none ∧
    (cycle demoLib demoConfig (netBody usdBody) netDown State.init).state.p.Get "USD"
      = some (.ofFrac false 1 1) ∧
    (cycle demoLib demoConfig (netBody usdBody) netDown State.init).state.p.Get "ETH" = none :=
  ⟨rfl,
    (cycle_isolates_error_return demoLib demoConfig netDown (netBody (coinBody "2000.0"))
      State.init rfl).1 ⟨"dial tcp: connection refused"⟩ _ _
      (updateFromOpenExchangeRates_error demoLib netDown demoConfig State.init _ (Or.inl rfl))
      (updateFromCoinMarketCap_ok demoLib (netBody (coinBody "2000.0")) demoConfig State.init
        ⟨.ok (coinBody "2000.0")⟩ (coinBody "2000.0") ⟨"2000.0"⟩ [] (.ofFrac false 2000 1)
        rfl rfl (by decide) (by decide)),
    (cycle_isolates_error_return demoLib demoConfig (netBody usdBody) netDown
      State.init rfl).2 ⟨"dial tcp: connection refused"⟩ _ _
      (updateFromOpenExchangeRates_ok demoLib (netBody usdBody) demoConfig State.init
        ⟨.ok usdBody⟩ usdBody usdRates rfl rfl rfl)
      (updateFromCoinMarketCap_error demoLib netDown demoConfig State.init _ (Or.inl rfl)),
    by decide, by decide, by decide, by decide⟩

/-- C8 fails on the code: updateFromOpenExchangeRates loops over
supportedCurrencies, which contains ethSymbol, so a rates response that quotes
"ETH" makes the rates adapter call `Save` with key "ETH" and overwrite the ETH
entry (here the one stored by the crypto adapter). -/
theorem C8_rates_adapter_writes_ETH :
    "ETH" ∈ supportedCurrencies ∧
    ethRates.Rates "ETH" = some (.ofFrac false 25 100000) ∧
    (updateFromOpenExchangeRates demoLib (netBody ethRatesBody) demoConfig
      (State.init.Save "ETH" (.ofFrac false 5 10000))).returned? = some none ∧
    savesOf (updateFromOpenExchangeRates demoLib (netBody ethRatesBody) demoConfig
      State.init).state.calls
      = [("USD", .ofFrac false 1 1), ("ETH", .ofFrac false 25 100000)] ∧
    (State.init.Save "ETH" (.ofFrac false 5 10000)).p.Get "ETH" = some (.ofFrac false 5 10000) ∧
    (updateFromOpenExchangeRates demoLib (netBody ethRatesBody) demoConfig
      (State.init.Save "ETH" (.ofFrac false 5 10000))).state.p.Get "ETH"
      = some (.ofFrac false 25 100000) ∧
    savesOf (cycle demoLib demoConfig (netBody ethRatesBody) (netBody (coinBody "2000.0"))
      State.init).state.calls
      = [("USD", .ofFrac false 1 1), ("ETH", .ofFrac false 25 100000),
         ("ETH", .ofFrac false 5 10000)] :=
  ⟨by decide, by decide, by decide, by decide, by decide, by decide, by decide⟩

/-- C9 fails on the code: in `go treatError(updateFromOpenExchangeRates(p, &c))`
the adapter call is an argument of the `go` statement and is evaluated by the
goroutine of Run before the new goroutine starts. The calls of one cycle are
therefore in sequence: the request of the crypto adapter is made only after the
rates adapter has returned (here after its `Save`, and, when the rates request
fails, after that failure). The sleep does start after both adapters returned. -/
theorem C9_adapters_run_in_sequence :
    (cycle demoLib demoConfig (netBody usdBody) (netBody (coinBody "2000.0"))
      State.init).state.calls =
      [.wgAdd 2,
       .println "url https://openexchangerates.example/latest.json?app_id=key",
       .httpGet "https://openexchangerates.example/latest.json?app_id=key",
       .save "USD" (.ofFrac false 1 1),
       .go none,
       .httpGet "https://coinmarketcap.example/ticker/ethereum/",
       .save "ETH" (.ofFrac false 5 10000),
       .go none,
       .wgWait,
       .sleep 60000000000] ∧
    (cycle demoLib demoConfig netDown (netBody (coinBody "2000.0")) State.init).state.calls =
      [.wgAdd 2,
       .println "url https://openexchangerates.example/latest.json?app_id=key",
       .httpGet "https://openexchangerates.example/latest.json?app_id=key",
       .go (some ⟨"dial tcp: connection refused"⟩),
       .httpGet "https://coinmarketcap.example/ticker/ethereum/",
       .save "ETH" (.ofFrac false 5 10000),
       .go none,
       .wgWait,
       .sleep 60000000000] :=
  ⟨by decide, by decide⟩

/-- C7 fails on the code: in a cycle in which the rates adapter succeeds (it
stores USD = 1.0 and returns nil) and the crypto adapter fails on an empty
response array, the failure is the panic of `resp[0]`, not a returned error.
The cycle does not complete: nothing is logged, neither the wait nor the sleep
is reached, and `Run` does not proceed to the next cycle (whose rates response
would have stored BRL). The store does hold exactly the writes of the rates
adapter at the point of the panic. -/
theorem C7_empty_array_aborts_cycle :
    (updateFromOpenExchangeRates demoLib (netBody usdBody) demoConfig State.init).returned?
      = some none ∧
    (updateFromCoinMarketCap demoLib (netBody "[]") demoConfig State.init).returned? = none ∧
    (cycle demoLib demoConfig (netBody usdBody) (netBody "[]") State.init).returned? = none ∧
    (cycle demoLib demoConfig (netBody usdBody) (netBody "[]") State.init).panicked?
      = some "runtime error: index out of range [0] with length 0" ∧
    (cycle demoLib demoConfig (netBody usdBody) (netBody "[]") State.init).state.logged = [] ∧
    (cycle demoLib demoConfig (netBody usdBody) (netBody "[]") State.init).state.calls =
      [.wgAdd 2,
       .println "url https://openexchangerates.example/latest.json?app_id=key",
       .httpGet "https://openexchangerates.example/latest.json?app_id=key",
       .save "USD" (.ofFrac false 1 1),
       .go none,
       .httpGet "https://coinmarketcap.example/ticker/ethereum/"] ∧
    (cycle demoLib demoConfig (netBody usdBody) (netBody "[]") State.init).state.p.Get "USD"
      = some (.ofFrac false 1 1) ∧
    (Run demoLib demoConfig
      [(netBody usdBody, netBody "[]"), (netBody scenarioBody, netBody (coinBody "2000.0"))]
      State.init).returned? = none ∧
    (Run demoLib demoConfig
      [(netBody usdBody, netBody "[]"), (netBody scenarioBody, netBody (coinBody "2000.0"))]
      State.init).state.p.Get "BRL" = none ∧
    (Run demoLib demoConfig
      [(netBody usdBody, netBody (coinBody "n/a")),
       (netBody scenarioBody, netBody (coinBody "2000.0"))]
      State.init).state.p.Get "BRL" = some (.ofFrac false 5 1) :=
  ⟨by decide, by decide, by decide, by decide, by decide, by decide, by decide, by decide,
    by decide, by decide⟩

end Worker
